import Mathlib

/-!
A shallow embedding of the ManjuTakhar/jobscheduler repository, covering
the job/task data model (`src/job_scheduler/models.py`), the subprocess
task executor (`src/job_scheduler/task_executors.py`), the scheduled-job
classes (`src/job_scheduler/core/scheduled_job.py`, identical to the
classes inlined at the bottom of `src/job_scheduler/scheduler.py`), the
schedule manager (`src/job_scheduler/core/schedule_manager.py`), the
event logger interface (`src/job_scheduler/logging/scheduler_logger.py`)
and the two parallel scheduler implementations
(`src/job_scheduler/scheduler.py` and `src/job_scheduler/core/scheduler.py`).

Modelling conventions:
* instants (`datetime`) are naturals (seconds since an arbitrary epoch);
* Python dicts keyed by `job_id` are association lists with in-place
  update (Python dicts replace the value of an existing key in place and
  append new keys, which the scheduler's `values()` iteration observes);
* `datetime.fromisoformat` and `croniter` are external libraries, so
  they enter as parameters of an `Env`: `parseISO` returns the instant
  or a `ValueError` message, `parseCron` returns the iterator state (the
  strictly-increasing sequence of fire times after the seed, plus a
  cursor) or an exception message;
* the event log (`scheduler.log`) is a list of structured events, the
  Python module logger's warning/error records are a separate `plog`
  list (info/debug chatter is not modelled), and each execution dispatch
  (`threading.Thread(...).start()` in `JobExecutor.execute` /
  `JobScheduler._execute_job`) appends the job id to a `dispatched` list.
-/

namespace JobSched

/-! ## Python dict model: association lists with in-place update -/

def lookupAL {α : Type} : List (String × α) → String → Option α
  | [], _ => none
  | (k, v) :: t, k' => if k = k' then some v else lookupAL t k'

/-- `d[k] = v`: replace in place when the key exists, else append. -/
def insertAL {α : Type} : List (String × α) → String → α → List (String × α)
  | [], k, v => [(k, v)]
  | (k', v') :: t, k, v => if k' = k then (k, v) :: t else (k', v') :: insertAL t k v

/-- Mutation of the object stored at an existing key (Python aliasing:
`self.scheduled_jobs[id].cancel()` or `scheduled_job.reschedule()`);
a no-op when the key is absent. -/
def updateAL {α : Type} : List (String × α) → String → α → List (String × α)
  | [], _, _ => []
  | (k', v') :: t, k, v => if k' = k then (k, v) :: t else (k', v') :: updateAL t k v

/-- `del d[k]`; a no-op when the key is absent. -/
def eraseAL {α : Type} : List (String × α) → String → List (String × α)
  | [], _ => []
  | (k', v') :: t, k => if k' = k then t else (k', v') :: eraseAL t k

def keysAL {α : Type} (l : List (String × α)) : List String := l.map Prod.fst

def valuesAL {α : Type} (l : List (String × α)) : List α := l.map Prod.snd

/-! ## models.py: Task and Job -/

/-- `Task` hierarchy from `models.py`; the only concrete subclass is
`ExecuteCommandTask(command)`, whose `type` field is `"execute_command"`. -/
inductive Task : Type
  | executeCommand (command : String)
deriving DecidableEq, Repr

def Task.type : Task → String
  | .executeCommand _ => "execute_command"

def Task.command : Task → String
  | .executeCommand c => c

/-- `Job` dataclass from `models.py`. -/
structure Job : Type where
  job_id : String
  description : String
  schedule : String
  task : Task
deriving DecidableEq, Repr

/-- `Job.is_cron_schedule`: cron strings contain neither `T` nor `Z`
(characters inspected through `String.data` so terms reduce). -/
def Job.is_cron_schedule (j : Job) : Bool :=
  !(j.schedule.data.contains 'T') && !(j.schedule.data.contains 'Z')

/-- `Job.is_one_time_schedule`. -/
def Job.is_one_time_schedule (j : Job) : Bool :=
  !(j.is_cron_schedule)

/-! ### Parsing (`Task.from_dict`, `Job.from_dict`)

The input of `from_dict` is a parsed JSON object; we model exactly the
keys the code reads. `extra` counts keys the code never reads, so that
Python dict truthiness (`if not task_data`) is representable. -/

structure TaskDict : Type where
  type : Option String
  command : Option String
  extra : Nat := 0
deriving DecidableEq, Repr

structure JobDict : Type where
  job_id : Option String
  description : Option String := none
  schedule : Option String
  task : Option TaskDict
deriving DecidableEq, Repr

/-- Python falsiness of `data.get(key)` for a string-valued key:
`None` or the empty string. -/
def pyFalsy : Option String → Bool
  | none => true
  | some s => s.data.isEmpty

/-- Python truthiness of a dict: it has at least one key. -/
def TaskDict.truthy (t : TaskDict) : Bool :=
  t.type.isSome || t.command.isSome || decide (t.extra ≠ 0)

/-- How Python renders `data.get('type')` inside an f-string. -/
def pyShow : Option String → String
  | none => "None"
  | some s => s

/-- `ExecuteCommandTask.from_dict`. -/
def ExecuteCommandTask.from_dict (data : TaskDict) : Except String Task :=
  if data.type ≠ some "execute_command" then
    .error "Invalid task type for ExecuteCommandTask"
  else if pyFalsy data.command then
    .error "Command is required for execute_command task"
  else
    match data.command with
    | some c => .ok (.executeCommand c)
    | none => .error "Command is required for execute_command task"

/-- `Task.from_dict`: discriminates on `type`. -/
def Task.from_dict (data : TaskDict) : Except String Task :=
  if data.type = some "execute_command" then
    ExecuteCommandTask.from_dict data
  else
    .error ("Unknown task type: " ++ pyShow data.type)

/-- `Job.from_dict`. -/
def Job.from_dict (data : JobDict) : Except String Job :=
  if pyFalsy data.job_id then .error "job_id is required"
  else
    let description := (data.description).getD ""
    if pyFalsy data.schedule then .error "schedule is required"
    else
      match data.task with
      | none => .error "task is required"
      | some td =>
        if !td.truthy then .error "task is required"
        else
          match Task.from_dict td with
          | .error e => .error e
          | .ok task =>
            match data.job_id, data.schedule with
            | some jid, some sched =>
              .ok { job_id := jid, description := description,
                    schedule := sched, task := task }
            | _, _ => .error "job_id is required"

/-! ## task_executors.py: ExecuteCommandExecutor -/

/-- What the spawned child process would do, an oracle for
`subprocess.run(command, shell=True, capture_output=True, text=True,
timeout=3600)`. -/
inductive ChildBehavior : Type
  | completes (duration : Nat) (returncode : Int) (stdout stderr : String)
  | spawnFailure (msg : String)
deriving DecidableEq, Repr

inductive SubprocessOutcome : Type
  | ok (returncode : Int) (stdout stderr : String)
  | timedOut
  | oserror (msg : String)
deriving DecidableEq, Repr

/-- The literal `timeout=3600` argument in `ExecuteCommandExecutor.execute`. -/
def subprocessTimeout : Nat := 3600

/-- `subprocess.run` semantics: the child is killed with
`TimeoutExpired` when it has not completed within `timeout` seconds. -/
def subprocessRun (timeout : Nat) : ChildBehavior → SubprocessOutcome
  | .completes d r o e => if timeout < d then .timedOut else .ok r o e
  | .spawnFailure m => .oserror m

/-- `ExecuteCommandExecutor.execute`, returning
`(success, output, error, exit_code)`. -/
def ExecuteCommandExecutor.execute (child : ChildBehavior) :
    Bool × String × String × Int :=
  match subprocessRun subprocessTimeout child with
  | .ok code out err =>
    if code = 0 then (true, out, "", code)
    else (false, out, err, code)
  | .timedOut => (false, "", "Command timed out", -1)
  | .oserror m => (false, "", "Error executing command: " ++ m, -1)

/-! ## croniter model

`croniter(expr, base)` yields, through successive `get_next` calls, the
strictly increasing sequence of cron fire times after `base`. We model
the iterator state as that sequence plus a cursor; the library contract
(strict increase) is a hypothesis where a theorem needs it. -/

structure CronIter : Type where
  seq : Nat → Nat
  idx : Nat

/-- `croniter.get_next(datetime)`: the next fire time, advancing the cursor. -/
def CronIter.get_next (c : CronIter) : Nat × CronIter :=
  (c.seq c.idx, { c with idx := c.idx + 1 })

/-! ## scheduled_job.py: OneTimeScheduledJob and RecurringScheduledJob

These classes appear verbatim twice: in `core/scheduled_job.py` and at
the bottom of the monolithic `scheduler.py` (the bodies are
line-identical), so one embedding serves both layouts. -/

inductive ScheduledJob : Type
  | oneTime (job : Job) (schedule_time : Nat) (cancelled : Bool)
  | recurring (job : Job) (cron : CronIter) (next_run_time : Nat)
      (last_check_time : Nat) (cancelled : Bool)

def ScheduledJob.job : ScheduledJob → Job
  | .oneTime j _ _ => j
  | .recurring j _ _ _ _ => j

def ScheduledJob.jobId (sj : ScheduledJob) : String := sj.job.job_id

def ScheduledJob.cancelled : ScheduledJob → Bool
  | .oneTime _ _ c => c
  | .recurring _ _ _ _ c => c

/-- `ScheduledJob.cancel`. -/
def ScheduledJob.cancel : ScheduledJob → ScheduledJob
  | .oneTime j t _ => .oneTime j t true
  | .recurring j c n l _ => .recurring j c n l true

/-- `should_run`: not cancelled and `now >= schedule_time` /
`now >= next_run_time`. -/
def ScheduledJob.should_run (now : Nat) : ScheduledJob → Bool
  | .oneTime _ t c => !c && decide (t ≤ now)
  | .recurring _ _ n _ c => !c && decide (n ≤ now)

/-- `mark_executed`: a no-op for one-time jobs; updates
`last_check_time` for recurring jobs. -/
def ScheduledJob.mark_executed (now : Nat) : ScheduledJob → ScheduledJob
  | .oneTime j t c => .oneTime j t c
  | .recurring j cr n _ c => .recurring j cr n now c

/-- `RecurringScheduledJob.reschedule`: `next_run_time = cron.get_next(...)`.
The iterator is NOT re-seeded; it continues from its cursor. A no-op on
one-time jobs (never called on them). -/
def ScheduledJob.reschedule : ScheduledJob → ScheduledJob
  | .oneTime j t c => .oneTime j t c
  | .recurring j cr _ l c =>
    let (n, cr') := cr.get_next
    .recurring j cr' n l c

def ScheduledJob.nextRunTime? : ScheduledJob → Option Nat
  | .oneTime _ _ _ => none
  | .recurring _ _ n _ _ => some n

/-- `RecurringScheduledJob.__init__(job, cron)`: `next_run_time` is the
iterator's first value and `last_check_time` is the creation instant. -/
def mkRecurringScheduledJob (job : Job) (cron : CronIter) (now : Nat) :
    ScheduledJob :=
  let (n, cron') := cron.get_next
  .recurring job cron' n now false

/-! ## scheduler_logger.py: the event log as structured events -/

inductive SchedEvent : Type
  | start
  | stop
  | add (job_id new_schedule : String)
  | update (job_id new_schedule : String)
  | scheduleChange (job_id old_schedule new_schedule : String)
  | delete (job_id : String)
  | error (job_id error_msg : String)
deriving DecidableEq, Repr

def SchedEvent.isError : SchedEvent → Bool
  | .error _ _ => true
  | _ => false

/-! ## External-library oracle -/

/-- The two third-party parsing functions the schedulers call:
`datetime.fromisoformat` (after the source's `Z` → `+00:00` rewrite and
naive→UTC defaulting, so the result is just an instant or a
`ValueError` message) and `croniter(expr, seed)` construction. -/
structure Env : Type where
  parseISO : String → Except String Nat
  parseCron : String → Nat → Except String CronIter

/-! ## Scheduler state -/

/-- The observable state of a `JobScheduler`: the two registry maps, the
event log (`scheduler.log`), the module logger's warning/error records,
and the ids handed to execution threads, in dispatch order. -/
structure SchedState : Type where
  jobs : List (String × Job)
  scheduled_jobs : List (String × ScheduledJob)
  events : List SchedEvent
  plog : List String
  dispatched : List String

def initState : SchedState :=
  { jobs := [], scheduled_jobs := [], events := [], plog := [], dispatched := [] }

/-- The message of `logger.warning` in the past-one-shot branch. -/
def pastWarning (job_id : String) : String :=
  "One-time job " ++ job_id ++ " scheduled time is in the past, skipping"

def invalidFormatMsg (job_id e : String) : String :=
  "Invalid schedule format for job " ++ job_id ++ ": " ++ e

def invalidCronMsg (job_id e : String) : String :=
  "Invalid cron expression for job " ++ job_id ++ ": " ++ e

/-- The source's `Z` handling before `datetime.fromisoformat`:
`if schedule_str.endswith('Z'): schedule_str = schedule_str[:-1] + '+00:00'`
(this preprocessing appears verbatim in both layouts). -/
def zToOffset (s : String) : String :=
  if s.data.getLast? = some 'Z' then String.mk s.data.dropLast ++ "+00:00"
  else s

/-- The first two lines of `_schedule_job` in both layouts:
`if job.job_id in self.scheduled_jobs: self.scheduled_jobs[job.job_id].cancel()`
— cancel the existing entry in place without removing it. -/
def cancelExisting (l : List (String × ScheduledJob)) (k : String) :
    List (String × ScheduledJob) :=
  match lookupAL l k with
  | some old => updateAL l k old.cancel
  | none => l

/-! ## core/: ScheduleManager and the decomposed JobScheduler -/

namespace Core

/-- `ScheduleManager._create_one_time_job`: returns the entry (or
`none`), the scheduler-log events emitted, and the module-log records
emitted. -/
def create_one_time_job (env : Env) (now : Nat) (job : Job) :
    Option ScheduledJob × List SchedEvent × List String :=
  match env.parseISO (zToOffset job.schedule) with
  | .ok schedule_time =>
    if schedule_time ≤ now then (none, [], [pastWarning job.job_id])
    else (some (.oneTime job schedule_time false), [], [])
  | .error e =>
    let msg := invalidFormatMsg job.job_id e
    (none, [.error job.job_id msg], [msg])

/-- `ScheduleManager._create_recurring_job`. -/
def create_recurring_job (env : Env) (now : Nat) (job : Job) :
    Option ScheduledJob × List SchedEvent × List String :=
  match env.parseCron job.schedule now with
  | .ok cron => (some (mkRecurringScheduledJob job cron now), [], [])
  | .error e =>
    let msg := invalidCronMsg job.job_id e
    (none, [.error job.job_id msg], [msg])

/-- `ScheduleManager.create_scheduled_job`. -/
def create_scheduled_job (env : Env) (now : Nat) (job : Job) :
    Option ScheduledJob × List SchedEvent × List String :=
  if job.is_one_time_schedule then create_one_time_job env now job
  else create_recurring_job env now job

/-- `JobScheduler._schedule_job` (core layout): cancel any existing
entry in place, then install the newly created entry if creation
succeeded. -/
def schedule_job (env : Env) (now : Nat) (st : SchedState) (job : Job) :
    SchedState :=
  let entries0 := cancelExisting st.scheduled_jobs job.job_id
  match create_scheduled_job env now job with
  | (some sj, evs, pls) =>
    { st with scheduled_jobs := insertAL entries0 job.job_id sj,
              events := st.events ++ evs, plog := st.plog ++ pls }
  | (none, evs, pls) =>
    { st with scheduled_jobs := entries0,
              events := st.events ++ evs, plog := st.plog ++ pls }

/-- `JobScheduler.add_job` (core layout). -/
def add_job (env : Env) (now : Nat) (st : SchedState) (job : Job) :
    SchedState :=
  let is_new := (lookupAL st.jobs job.job_id).isNone
  let old_schedule :=
    match lookupAL st.jobs job.job_id with
    | some old => old.schedule
    | none => ""
  let st1 := { st with jobs := insertAL st.jobs job.job_id job }
  let st2 := schedule_job env now st1 job
  if is_new then
    { st2 with events := st2.events ++ [.add job.job_id job.schedule] }
  else if old_schedule ≠ job.schedule then
    { st2 with events :=
        st2.events ++ [.scheduleChange job.job_id old_schedule job.schedule] }
  else
    { st2 with events := st2.events ++ [.update job.job_id job.schedule] }

/-- `JobScheduler.remove_job` (core layout): delete from both maps when
present (the entry is cancelled before deletion), then always log
`DELETE`. -/
def remove_job (st : SchedState) (job_id : String) : SchedState :=
  { st with jobs := eraseAL st.jobs job_id,
            scheduled_jobs := eraseAL st.scheduled_jobs job_id,
            events := st.events ++ [.delete job_id] }

/-- Post-dispatch handling of one fired entry inside `_run`: record the
dispatch (`self.job_executor.execute(scheduled_job)` starts a thread),
`mark_executed`, then under the lock reschedule a recurring entry in
place or evict a one-time entry if still present. -/
def process_fired (now : Nat) (st : SchedState) (sj : ScheduledJob) :
    SchedState :=
  let st := { st with dispatched := st.dispatched ++ [sj.jobId] }
  match sj with
  | .recurring j cr n l c =>
    let sj' := (ScheduledJob.recurring j cr n l c).mark_executed now
    let sj'' := sj'.reschedule
    { st with scheduled_jobs := updateAL st.scheduled_jobs j.job_id sj'' }
  | .oneTime j t c =>
    let _ := (ScheduledJob.oneTime j t c).mark_executed now
    if (lookupAL st.scheduled_jobs j.job_id).isSome then
      { st with scheduled_jobs := eraseAL st.scheduled_jobs j.job_id }
    else st

/-- One iteration of the `_run` loop at wall time `now`: snapshot the
due entries under the lock, then dispatch and reschedule/evict each. -/
def tick (now : Nat) (st : SchedState) : SchedState :=
  let jobs_to_run :=
    (valuesAL st.scheduled_jobs).filter (fun sj => sj.should_run now)
  jobs_to_run.foldl (process_fired now) st

end Core

/-! ## scheduler.py: the monolithic JobScheduler

`add_job`, `remove_job` and `_run` are line-identical to the core
layout; `_schedule_job` inlines the one-time/recurring creation logic
that the core layout delegates to `ScheduleManager`, and `_execute_job`
inlines what `JobExecutor.execute` does. -/

namespace Mono

/-- `JobScheduler._schedule_job` (monolithic layout), with the
timestamp/cron parsing written inline as in the source. -/
def schedule_job (env : Env) (now : Nat) (st : SchedState) (job : Job) :
    SchedState :=
  let entries0 := cancelExisting st.scheduled_jobs job.job_id
  if job.is_one_time_schedule then
    match env.parseISO (zToOffset job.schedule) with
    | .ok schedule_time =>
      if schedule_time ≤ now then
        { st with scheduled_jobs := entries0,
                  plog := st.plog ++ [pastWarning job.job_id] }
      else
        { st with scheduled_jobs :=
            insertAL entries0 job.job_id (.oneTime job schedule_time false) }
    | .error e =>
      let msg := invalidFormatMsg job.job_id e
      { st with scheduled_jobs := entries0,
                events := st.events ++ [.error job.job_id msg],
                plog := st.plog ++ [msg] }
  else
    match env.parseCron job.schedule now with
    | .ok cron =>
      { st with scheduled_jobs :=
          insertAL entries0 job.job_id (mkRecurringScheduledJob job cron now) }
    | .error e =>
      let msg := invalidCronMsg job.job_id e
      { st with scheduled_jobs := entries0,
                events := st.events ++ [.error job.job_id msg],
                plog := st.plog ++ [msg] }

/-- `JobScheduler.add_job` (monolithic layout). -/
def add_job (env : Env) (now : Nat) (st : SchedState) (job : Job) :
    SchedState :=
  let is_new := (lookupAL st.jobs job.job_id).isNone
  let old_schedule :=
    match lookupAL st.jobs job.job_id with
    | some old => old.schedule
    | none => ""
  let st1 := { st with jobs := insertAL st.jobs job.job_id job }
  let st2 := schedule_job env now st1 job
  if is_new then
    { st2 with events := st2.events ++ [.add job.job_id job.schedule] }
  else if old_schedule ≠ job.schedule then
    { st2 with events :=
        st2.events ++ [.scheduleChange job.job_id old_schedule job.schedule] }
  else
    { st2 with events := st2.events ++ [.update job.job_id job.schedule] }

/-- `JobScheduler.remove_job` (monolithic layout). -/
def remove_job (st : SchedState) (job_id : String) : SchedState :=
  { st with jobs := eraseAL st.jobs job_id,
            scheduled_jobs := eraseAL st.scheduled_jobs job_id,
            events := st.events ++ [.delete job_id] }

/-- Post-dispatch handling of one fired entry inside `_run`
(monolithic layout; the dispatch is `self._execute_job(scheduled_job)`). -/
def process_fired (now : Nat) (st : SchedState) (sj : ScheduledJob) :
    SchedState :=
  let st := { st with dispatched := st.dispatched ++ [sj.jobId] }
  match sj with
  | .recurring j cr n l c =>
    let sj' := (ScheduledJob.recurring j cr n l c).mark_executed now
    let sj'' := sj'.reschedule
    { st with scheduled_jobs := updateAL st.scheduled_jobs j.job_id sj'' }
  | .oneTime j t c =>
    let _ := (ScheduledJob.oneTime j t c).mark_executed now
    if (lookupAL st.scheduled_jobs j.job_id).isSome then
      { st with scheduled_jobs := eraseAL st.scheduled_jobs j.job_id }
    else st

/-- One iteration of the `_run` loop (monolithic layout). -/
def tick (now : Nat) (st : SchedState) : SchedState :=
  let jobs_to_run :=
    (valuesAL st.scheduled_jobs).filter (fun sj => sj.should_run now)
  jobs_to_run.foldl (process_fired now) st

end Mono

/-! ## Operation sequences -/

/-- The externally driven steps of the scheduler: reconciler-issued
`add_job`/`remove_job` calls and tick-loop iterations, each stamped
with the wall time at which it runs. -/
inductive Op : Type
  | add (job : Job) (now : Nat)
  | remove (job_id : String)
  | tick (now : Nat)

def Core.step (env : Env) (st : SchedState) : Op → SchedState
  | .add job now => Core.add_job env now st job
  | .remove job_id => Core.remove_job st job_id
  | .tick now => Core.tick now st

def Mono.step (env : Env) (st : SchedState) : Op → SchedState
  | .add job now => Mono.add_job env now st job
  | .remove job_id => Mono.remove_job st job_id
  | .tick now => Mono.tick now st

def Core.run (env : Env) (ops : List Op) (st : SchedState) : SchedState :=
  ops.foldl (Core.step env) st

def Mono.run (env : Env) (ops : List Op) (st : SchedState) : SchedState :=
  ops.foldl (Mono.step env) st

/-! ## Concrete instances used to exercise the model

`envTest.parseCron` instantiates the croniter contract for the
every-minute expression with fire times 60 s apart after the seed;
`parseISO` recognises the single instant the scenarios need. -/

def envTest : Env :=
  { parseISO := fun s =>
      if s = "2000-01-01T00:00:00+00:00" then .ok 0 else .error "bad iso",
    parseCron := fun s seed =>
      if s = "* * * * *" then .ok ⟨fun i => seed + 60 * (i + 1), 0⟩
      else .error "bad cron" }

/-- A recurring every-minute job. -/
def rJob : Job :=
  { job_id := "r1", description := "", schedule := "* * * * *",
    task := .executeCommand "echo hi" }

/-- A one-shot job whose instant lies in the past. -/
def pJob : Job :=
  { job_id := "p1", description := "", schedule := "2000-01-01T00:00:00Z",
    task := .executeCommand "echo hi" }

/-! ## Association-list lemmas -/

theorem lookupAL_insertAL_self {α : Type} (l : List (String × α)) (k : String)
    (v : α) : lookupAL (insertAL l k v) k = some v := by
  induction l with
  | nil => simp [insertAL, lookupAL]
  | cons p t ih =>
    by_cases h : p.1 = k
    · simp [insertAL, h, lookupAL]
    · simpa [insertAL, h, lookupAL] using ih

theorem lookupAL_insertAL_ne {α : Type} (l : List (String × α)) (k k' : String)
    (v : α) (h : k ≠ k') : lookupAL (insertAL l k v) k' = lookupAL l k' := by
  induction l with
  | nil => simp [insertAL, lookupAL, h]
  | cons p t ih =>
    by_cases hp : p.1 = k
    · rw [insertAL, if_pos hp, lookupAL, if_neg h, lookupAL,
        if_neg (by rw [hp]; exact h)]
    · rw [insertAL, if_neg hp]
      by_cases hpk : p.1 = k'
      · rw [lookupAL, if_pos hpk, lookupAL, if_pos hpk]
      · rw [lookupAL, if_neg hpk, lookupAL, if_neg hpk, ih]

theorem lookupAL_updateAL_ne {α : Type} (l : List (String × α)) (k k' : String)
    (v : α) (h : k ≠ k') : lookupAL (updateAL l k v) k' = lookupAL l k' := by
  induction l with
  | nil => simp [updateAL]
  | cons p t ih =>
    by_cases hp : p.1 = k
    · rw [updateAL, if_pos hp, lookupAL, if_neg h, lookupAL,
        if_neg (by rw [hp]; exact h)]
    · rw [updateAL, if_neg hp]
      by_cases hpk : p.1 = k'
      · rw [lookupAL, if_pos hpk, lookupAL, if_pos hpk]
      · rw [lookupAL, if_neg hpk, lookupAL, if_neg hpk, ih]

theorem lookupAL_eraseAL_ne {α : Type} (l : List (String × α)) (k k' : String)
    (h : k ≠ k') : lookupAL (eraseAL l k) k' = lookupAL l k' := by
  induction l with
  | nil => simp [eraseAL]
  | cons p t ih =>
    by_cases hp : p.1 = k
    · rw [eraseAL, if_pos hp, lookupAL, if_neg (by rw [hp]; exact h)]
    · rw [eraseAL, if_neg hp]
      by_cases hpk : p.1 = k'
      · rw [lookupAL, if_pos hpk, lookupAL, if_pos hpk]
      · rw [lookupAL, if_neg hpk, lookupAL, if_neg hpk, ih]

theorem eraseAL_of_lookupAL_none {α : Type} (l : List (String × α))
    (k : String) (h : lookupAL l k = none) : eraseAL l k = l := by
  induction l with
  | nil => simp [eraseAL]
  | cons p t ih =>
    by_cases hp : p.1 = k
    · simp [lookupAL, hp] at h
    · simp only [lookupAL, hp, if_neg] at h
      simp [eraseAL, hp, ih h]

theorem keysAL_updateAL {α : Type} (l : List (String × α)) (k : String)
    (v : α) : keysAL (updateAL l k v) = keysAL l := by
  induction l with
  | nil => simp [updateAL]
  | cons p t ih =>
    by_cases hp : p.1 = k
    · simp [updateAL, hp, keysAL]
    · simpa [updateAL, hp, keysAL] using ih

theorem keysAL_eraseAL_sublist {α : Type} (l : List (String × α))
    (k : String) : (keysAL (eraseAL l k)).Sublist (keysAL l) := by
  induction l with
  | nil => simp [eraseAL]
  | cons p t ih =>
    by_cases hp : p.1 = k
    · rw [eraseAL, if_pos hp]
      exact (List.sublist_cons_self p.1 (keysAL t)).trans (by simp [keysAL])
    · simpa [eraseAL, hp, keysAL] using List.Sublist.cons₂ p.1 ih

theorem lookupAL_isSome_iff_mem_keysAL {α : Type} (l : List (String × α))
    (k : String) : (lookupAL l k).isSome ↔ k ∈ keysAL l := by
  induction l with
  | nil => simp [lookupAL, keysAL]
  | cons p t ih =>
    by_cases hp : p.1 = k
    · simp [lookupAL, hp, keysAL]
    · rw [lookupAL, if_neg hp]
      simp only [keysAL, List.map_cons, List.mem_cons]
      constructor
      · intro h2
        exact Or.inr (by simpa [keysAL] using ih.mp h2)
      · rintro (h2 | h2)
        · exact absurd h2.symm hp
        · exact ih.mpr (by simpa [keysAL] using h2)

theorem lookupAL_eraseAL_self_of_nodup {α : Type} (l : List (String × α))
    (k : String) (h : (keysAL l).Nodup) : lookupAL (eraseAL l k) k = none := by
  induction l with
  | nil => simp [eraseAL, lookupAL]
  | cons p t ih =>
    simp only [keysAL, List.map_cons, List.nodup_cons] at h
    by_cases hp : p.1 = k
    · rw [eraseAL, if_pos hp]
      rw [Option.eq_none_iff_forall_not_mem]
      intro v hv
      have hk : k ∈ keysAL t := by
        rw [← lookupAL_isSome_iff_mem_keysAL]
        exact Option.isSome_iff_exists.mpr ⟨v, Option.mem_def.mp hv⟩
      exact h.1 (hp ▸ hk)
    · rw [eraseAL, if_neg hp, lookupAL, if_neg hp]
      exact ih h.2

theorem nodup_keysAL_eraseAL {α : Type} (l : List (String × α)) (k : String)
    (h : (keysAL l).Nodup) : (keysAL (eraseAL l k)).Nodup :=
  (keysAL_eraseAL_sublist l k).nodup h

theorem nodup_keysAL_updateAL {α : Type} (l : List (String × α)) (k : String)
    (v : α) (h : (keysAL l).Nodup) : (keysAL (updateAL l k v)).Nodup := by
  rw [keysAL_updateAL]; exact h

theorem mem_of_mem_updateAL {α : Type} (l : List (String × α)) (k : String)
    (v : α) (p : String × α) (hp : p ∈ updateAL l k v) :
    p ∈ l ∨ p = (k, v) := by
  induction l with
  | nil => simp [updateAL] at hp
  | cons q t ih =>
    by_cases hq : q.1 = k
    · rw [updateAL, if_pos hq] at hp
      rcases List.mem_cons.mp hp with h | h
      · exact Or.inr h
      · exact Or.inl (List.mem_cons_of_mem q h)
    · rw [updateAL, if_neg hq] at hp
      rcases List.mem_cons.mp hp with h | h
      · exact Or.inl (h ▸ List.mem_cons_self q t)
      · rcases ih h with h2 | h2
        · exact Or.inl (List.mem_cons_of_mem q h2)
        · exact Or.inr h2

theorem mem_of_mem_eraseAL {α : Type} (l : List (String × α)) (k : String)
    (p : String × α) (hp : p ∈ eraseAL l k) : p ∈ l := by
  induction l with
  | nil => simp [eraseAL] at hp
  | cons q t ih =>
    by_cases hq : q.1 = k
    · rw [eraseAL, if_pos hq] at hp
      exact List.mem_cons_of_mem q hp
    · rw [eraseAL, if_neg hq] at hp
      rcases List.mem_cons.mp hp with h | h
      · exact h ▸ List.mem_cons_self q t
      · exact List.mem_cons_of_mem q (ih h)

theorem mem_of_mem_insertAL {α : Type} (l : List (String × α)) (k : String)
    (v : α) (p : String × α) (hp : p ∈ insertAL l k v) :
    p ∈ l ∨ p = (k, v) := by
  induction l with
  | nil => simpa [insertAL] using hp
  | cons q t ih =>
    by_cases hq : q.1 = k
    · rw [insertAL, if_pos hq] at hp
      rcases List.mem_cons.mp hp with h | h
      · exact Or.inr h
      · exact Or.inl (List.mem_cons_of_mem q h)
    · rw [insertAL, if_neg hq] at hp
      rcases List.mem_cons.mp hp with h | h
      · exact Or.inl (h ▸ List.mem_cons_self q t)
      · rcases ih h with h2 | h2
        · exact Or.inl (List.mem_cons_of_mem q h2)
        · exact Or.inr h2

theorem mem_keysAL_insertAL {α : Type} (l : List (String × α)) (k k' : String)
    (v : α) (h : k' ∈ keysAL (insertAL l k v)) : k' ∈ keysAL l ∨ k' = k := by
  rcases List.mem_map.mp h with ⟨p, hp, hpk⟩
  rcases mem_of_mem_insertAL l k v p hp with h2 | h2
  · exact Or.inl (hpk ▸ List.mem_map_of_mem Prod.fst h2)
  · exact Or.inr (by rw [← hpk, h2])

/-! ## Characterization of `schedule_job` and `add_job` (core layout) -/

theorem cancelExisting_of_lookupAL_none (l : List (String × ScheduledJob))
    (k : String) (h : lookupAL l k = none) : cancelExisting l k = l := by
  unfold cancelExisting
  rw [h]

theorem Core.schedule_job_char (env : Env) (now : Nat) (st : SchedState)
    (job : Job) :
    Core.schedule_job env now st job =
      { st with
        scheduled_jobs :=
          match (Core.create_scheduled_job env now job).1 with
          | some sj =>
            insertAL (cancelExisting st.scheduled_jobs job.job_id) job.job_id sj
          | none => cancelExisting st.scheduled_jobs job.job_id,
        events := st.events ++ (Core.create_scheduled_job env now job).2.1,
        plog := st.plog ++ (Core.create_scheduled_job env now job).2.2 } := by
  unfold Core.schedule_job
  rcases hc : Core.create_scheduled_job env now job with ⟨osj, evs, pls⟩
  cases osj <;> simp [hc]

theorem Core.create_scheduled_job_events_isError (env : Env) (now : Nat)
    (job : Job) :
    ∀ ev ∈ (Core.create_scheduled_job env now job).2.1, ev.isError := by
  unfold Core.create_scheduled_job Core.create_one_time_job
    Core.create_recurring_job
  by_cases h : job.is_one_time_schedule
  · rw [if_pos h]
    cases hp : env.parseISO (zToOffset job.schedule) with
    | ok t =>
      by_cases ht : t ≤ now
      · simp [ht, SchedEvent.isError]
      · simp [ht, SchedEvent.isError]
    | error e => simp [SchedEvent.isError]
  · rw [if_neg h]
    cases hp : env.parseCron job.schedule now with
    | ok c => simp [SchedEvent.isError]
    | error e => simp [SchedEvent.isError]

/-- In the new-job case, `add_job` is `_schedule_job` on the state with
the job installed, followed by the `ADD` event. -/
theorem Core.add_job_new_char (env : Env) (now : Nat) (st : SchedState)
    (job : Job) (h : lookupAL st.jobs job.job_id = none) :
    Core.add_job env now st job =
      let st2 := Core.schedule_job env now
        { st with jobs := insertAL st.jobs job.job_id job } job
      { st2 with events := st2.events ++ [.add job.job_id job.schedule] } := by
  unfold Core.add_job
  simp [h]

theorem Core.add_job_existing_char (env : Env) (now : Nat) (st : SchedState)
    (job : Job) (old : Job) (h : lookupAL st.jobs job.job_id = some old) :
    Core.add_job env now st job =
      let st2 := Core.schedule_job env now
        { st with jobs := insertAL st.jobs job.job_id job } job
      if old.schedule ≠ job.schedule then
        { st2 with events := st2.events
            ++ [.scheduleChange job.job_id old.schedule job.schedule] }
      else
        { st2 with events := st2.events ++ [.update job.job_id job.schedule] } := by
  unfold Core.add_job
  by_cases hs : old.schedule ≠ job.schedule <;> simp [h, hs]

/-- Full characterization of `add_job`, uniform over the new/existing
cases: the job is upserted, the entries map becomes `cancelExisting`
(the old entry cancelled in place) with the new entry installed on top
only when creation succeeded, the process log gains the creation
warnings, and the event log gains the creation errors followed by one
non-error registry event (`ADD`, `UPDATE` or `SCHEDULE_CHANGE`). -/
theorem Core.add_job_char (env : Env) (now : Nat) (st : SchedState)
    (job : Job) :
    (Core.add_job env now st job).jobs = insertAL st.jobs job.job_id job
    ∧ (Core.add_job env now st job).scheduled_jobs
        = (match (Core.create_scheduled_job env now job).1 with
           | some sj =>
             insertAL (cancelExisting st.scheduled_jobs job.job_id)
               job.job_id sj
           | none => cancelExisting st.scheduled_jobs job.job_id)
    ∧ (Core.add_job env now st job).plog
        = st.plog ++ (Core.create_scheduled_job env now job).2.2
    ∧ ∃ ev, ¬ ev.isError = true ∧ (Core.add_job env now st job).events
        = st.events ++ (Core.create_scheduled_job env now job).2.1 ++ [ev] := by
  rcases hlj : lookupAL st.jobs job.job_id with _ | old
  · rw [Core.add_job_new_char env now st job hlj]
    refine ⟨?_, ?_, ?_, ⟨.add job.job_id job.schedule,
      by simp [SchedEvent.isError], ?_⟩⟩
    · simp [Core.schedule_job_char]
    · simp only [Core.schedule_job_char]
    · simp [Core.schedule_job_char]
    · simp [Core.schedule_job_char]
  · rw [Core.add_job_existing_char env now st job old hlj]
    by_cases hs : old.schedule ≠ job.schedule
    · simp only [if_pos hs]
      refine ⟨?_, ?_, ?_, ⟨.scheduleChange job.job_id old.schedule job.schedule,
        by simp [SchedEvent.isError], ?_⟩⟩
      · simp [Core.schedule_job_char]
      · simp only [Core.schedule_job_char]
      · simp [Core.schedule_job_char]
      · simp [Core.schedule_job_char]
    · simp only [if_neg hs]
      refine ⟨?_, ?_, ?_, ⟨.update job.job_id job.schedule,
        by simp [SchedEvent.isError], ?_⟩⟩
      · simp [Core.schedule_job_char]
      · simp only [Core.schedule_job_char]
      · simp [Core.schedule_job_char]
      · simp [Core.schedule_job_char]

/-! ## Claim C4 -/

/-- C4 counterexample: for a child that completes with exit code 0 after
writing to stderr, `ExecuteCommandExecutor.execute` returns `""` as the
stderr component, not the child's captured stderr (`return True, stdout,
"", exit_code` in the success branch), so the claim that stdout AND
stderr are the fully captured streams is false. -/
theorem claim_C4_counterexample :
    ExecuteCommandExecutor.execute (.completes 1 0 "out" "warn")
      = (true, "out", "", 0)
    ∧ "warn" ≠ "" :=
  ⟨rfl, by decide⟩

/-- C4 (amended): for every `execute_command` task whose child process
completes within the timeout, `execute` returns
`(success, stdout, stderr', exitCode)` where `stdout` is the child's
fully captured standard output, `stderr'` is the child's fully captured
standard error when `exitCode ≠ 0` but the empty string when
`exitCode = 0`, and `success` is true if and only if `exitCode = 0`. -/
theorem claim_C4_execute_completed (d : Nat) (r : Int) (o e : String)
    (h : d ≤ subprocessTimeout) :
    ExecuteCommandExecutor.execute (.completes d r o e)
      = (decide (r = 0), o, if r = 0 then "" else e, r)
    ∧ ((ExecuteCommandExecutor.execute (.completes d r o e)).1 = true ↔ r = 0) := by
  have hlt : ¬ subprocessTimeout < d := Nat.not_lt.mpr h
  constructor
  · simp only [ExecuteCommandExecutor.execute, subprocessRun, if_neg hlt]
    by_cases hr : r = 0 <;> simp [hr]
  · simp only [ExecuteCommandExecutor.execute, subprocessRun, if_neg hlt]
    by_cases hr : r = 0 <;> simp [hr]

/-- C4 witness: the amended theorem evaluated at a concrete failing
child (`exit code 2`). -/
theorem claim_C4_witness :
    (ExecuteCommandExecutor.execute (.completes 1 2 "o" "e")
      = (decide ((2 : Int) = 0), "o", if (2 : Int) = 0 then "" else "e", 2))
    ∧ ((ExecuteCommandExecutor.execute (.completes 1 2 "o" "e")).1 = true
        ↔ (2 : Int) = 0) :=
  claim_C4_execute_completed 1 2 "o" "e" (by decide)

/-! ## Claim C9 -/

/-- C9: the executor passes a hard wall-clock timeout of 3600 seconds to
`subprocess.run`; when the child exceeds it the result is
`(false, "", "Command timed out", -1)`, and on spawn failure or any
other host error the result is
`(false, "", "Error executing command: <msg>", -1)`. -/
theorem claim_C9_timeout_and_spawn_failure (d : Nat) (r : Int)
    (o e m : String) :
    (subprocessTimeout < d →
      ExecuteCommandExecutor.execute (.completes d r o e)
        = (false, "", "Command timed out", -1))
    ∧ ExecuteCommandExecutor.execute (.spawnFailure m)
        = (false, "", "Error executing command: " ++ m, -1)
    ∧ subprocessTimeout = 3600 := by
  refine ⟨fun h => ?_, rfl, rfl⟩
  simp only [ExecuteCommandExecutor.execute, subprocessRun, if_pos h]

/-- C9 witness: a child running 5000 s hits the 3600 s timeout, and a
spawn failure with message `"boom"` yields the host-error tuple. -/
theorem claim_C9_witness :
    ExecuteCommandExecutor.execute (.completes 5000 0 "x" "y")
      = (false, "", "Command timed out", -1)
    ∧ ExecuteCommandExecutor.execute (.spawnFailure "boom")
        = (false, "", "Error executing command: " ++ "boom", -1) :=
  ⟨(claim_C9_timeout_and_spawn_failure 5000 0 "x" "y" "boom").1 (by decide),
   (claim_C9_timeout_and_spawn_failure 5000 0 "x" "y" "boom").2.1⟩

/-! ## Claim C8 -/

/-- C8: `remove_job` on a `job_id` absent from the registry leaves both
the `jobs` map and the `scheduled_jobs` (entries) map unchanged and
still appends a `DELETE` event for that id to the event log. -/
theorem claim_C8_remove_unknown_id (st : SchedState) (job_id : String)
    (hj : lookupAL st.jobs job_id = none)
    (he : lookupAL st.scheduled_jobs job_id = none) :
    (Core.remove_job st job_id).jobs = st.jobs
    ∧ (Core.remove_job st job_id).scheduled_jobs = st.scheduled_jobs
    ∧ (Core.remove_job st job_id).events = st.events ++ [.delete job_id] := by
  unfold Core.remove_job
  exact ⟨eraseAL_of_lookupAL_none _ _ hj, eraseAL_of_lookupAL_none _ _ he, rfl⟩

/-- C8 witness: removing the unknown id `"ghost"` from the empty
registry. -/
theorem claim_C8_witness :
    (Core.remove_job initState "ghost").jobs = initState.jobs
    ∧ (Core.remove_job initState "ghost").scheduled_jobs
        = initState.scheduled_jobs
    ∧ (Core.remove_job initState "ghost").events
        = initState.events ++ [.delete "ghost"] :=
  claim_C8_remove_unknown_id initState "ghost" rfl rfl

/-! ## Claim C5 -/

/-- C5: `add_job` emits exactly one `ADD` event when the id is new,
exactly one `UPDATE` event when the id exists with a textually equal
schedule, and exactly one `SCHEDULE_CHANGE` event carrying the old and
new schedule strings (and no `UPDATE`) when the id exists with a
different schedule; the only other events `add_job` can emit are the
`ERROR` events of schedule creation. -/
theorem claim_C5_add_job_events (env : Env) (now : Nat) (st : SchedState)
    (job : Job) :
    (lookupAL st.jobs job.job_id = none →
      ∃ errs, (∀ ev ∈ errs, SchedEvent.isError ev)
        ∧ (Core.add_job env now st job).events
            = st.events ++ errs ++ [.add job.job_id job.schedule])
    ∧ (∀ old, lookupAL st.jobs job.job_id = some old →
        old.schedule = job.schedule →
      ∃ errs, (∀ ev ∈ errs, SchedEvent.isError ev)
        ∧ (Core.add_job env now st job).events
            = st.events ++ errs ++ [.update job.job_id job.schedule])
    ∧ (∀ old, lookupAL st.jobs job.job_id = some old →
        old.schedule ≠ job.schedule →
      ∃ errs, (∀ ev ∈ errs, SchedEvent.isError ev)
        ∧ (Core.add_job env now st job).events
            = st.events ++ errs
              ++ [.scheduleChange job.job_id old.schedule job.schedule]) := by
  refine ⟨fun hnew => ?_, fun old hold heq => ?_, fun old hold hne => ?_⟩
  · refine ⟨(Core.create_scheduled_job env now job).2.1,
      Core.create_scheduled_job_events_isError env now job, ?_⟩
    rw [Core.add_job_new_char env now st job hnew]
    simp [Core.schedule_job_char]
  · refine ⟨(Core.create_scheduled_job env now job).2.1,
      Core.create_scheduled_job_events_isError env now job, ?_⟩
    rw [Core.add_job_existing_char env now st job old hold]
    simp [Core.schedule_job_char, heq]
  · refine ⟨(Core.create_scheduled_job env now job).2.1,
      Core.create_scheduled_job_events_isError env now job, ?_⟩
    rw [Core.add_job_existing_char env now st job old hold]
    simp [Core.schedule_job_char, hne]

/-- C5 witness: adding the recurring job to the empty registry emits its
`ADD` event (with no preceding errors). -/
theorem claim_C5_witness :
    ∃ errs, (∀ ev ∈ errs, SchedEvent.isError ev)
      ∧ (Core.add_job envTest 0 initState rJob).events
          = initState.events ++ errs ++ [.add rJob.job_id rJob.schedule] :=
  (claim_C5_add_job_events envTest 0 initState rJob).1 rfl

/-! ## Claim C6 -/

/-- An existing cron job, an update of it to a past one-shot schedule,
and a registry state holding the existing job with a live entry. -/
def uJob1 : Job :=
  { job_id := "u1", description := "", schedule := "0 * * * *",
    task := .executeCommand "echo a" }

def uJob2 : Job :=
  { job_id := "u1", description := "", schedule := "2000-01-01T00:00:00Z",
    task := .executeCommand "echo b" }

def uState : SchedState :=
  { jobs := [("u1", uJob1)],
    scheduled_jobs := [("u1", .oneTime uJob1 500 false)],
    events := [], plog := [], dispatched := [] }

/-- C6 counterexample, two divergences at concrete inputs. First, for
the past one-shot `pJob` at wall time 100, `_create_one_time_job`
returns `None` and emits NO event-log entry (its emitted event list is
`[]`; the warning goes to the Python module logger only), and the whole
`add_job` leaves the event log with just the `ADD` line — so the claim
that a warning is recorded in the event log is false. Second, when the
EXISTING job `u1` is updated to the past one-shot `uJob2`,
`_schedule_job` cancels the old entry in place and, creation returning
`None`, leaves it bound in `scheduled_jobs` — so "the job remains in
the jobs map with no entries binding" is also false for updates. -/
theorem claim_C6_counterexample :
    Core.create_one_time_job envTest 100 pJob = (none, [], [pastWarning "p1"])
    ∧ (Core.add_job envTest 100 initState pJob).events
        = [SchedEvent.add "p1" "2000-01-01T00:00:00Z"]
    ∧ lookupAL (Core.add_job envTest 100 uState uJob2).scheduled_jobs "u1"
        = some (.oneTime uJob1 500 true)
    ∧ lookupAL (Core.add_job envTest 100 uState uJob2).jobs "u1" = some uJob2
    ∧ (Core.add_job envTest 100 uState uJob2).plog = [pastWarning "u1"] :=
  ⟨rfl, rfl, rfl, rfl, rfl⟩

/-- C6 (amended): for EVERY job whose schedule is an ISO-8601 instant
parsing to a time ≤ now, `_create_one_time_job` returns `None` and
records the warning in the PROCESS log (the Python module logger) —
nothing is written to the event log beyond the single non-error
registry event of the upsert; the job is stored in `jobs`, and no
schedule entry is installed: the entries map is exactly
`cancelExisting`, i.e. unchanged except that a pre-existing entry for
the id is cancelled in place (so a fresh job has no entries binding,
while an updated job retains its old, now-cancelled entry). -/
theorem claim_C6_past_one_shot (env : Env) (now t : Nat) (st : SchedState)
    (job : Job) (h1 : job.is_one_time_schedule = true)
    (h2 : env.parseISO (zToOffset job.schedule) = .ok t) (h3 : t ≤ now) :
    Core.create_one_time_job env now job = (none, [], [pastWarning job.job_id])
    ∧ lookupAL (Core.add_job env now st job).jobs job.job_id = some job
    ∧ (Core.add_job env now st job).scheduled_jobs
        = cancelExisting st.scheduled_jobs job.job_id
    ∧ (Core.add_job env now st job).plog = st.plog ++ [pastWarning job.job_id]
    ∧ ∃ ev, ¬ ev.isError = true
        ∧ (Core.add_job env now st job).events = st.events ++ [ev] := by
  have hcreate1 : Core.create_one_time_job env now job
      = (none, [], [pastWarning job.job_id]) := by
    unfold Core.create_one_time_job
    rw [h2]
    simp [h3]
  have hcreate : Core.create_scheduled_job env now job
      = (none, [], [pastWarning job.job_id]) := by
    unfold Core.create_scheduled_job
    rw [if_pos h1, hcreate1]
  obtain ⟨hj, hsjc, hp, ev, hev, hevents⟩ := Core.add_job_char env now st job
  refine ⟨hcreate1, ?_, ?_, ?_, ⟨ev, hev, ?_⟩⟩
  · rw [hj]
    exact lookupAL_insertAL_self st.jobs job.job_id job
  · rw [hsjc, hcreate]
  · rw [hp, hcreate]
  · rw [hevents, hcreate]
    simp

/-- C6 witness: the amended theorem at the concrete update of the
existing job `u1` to the past one-shot schedule at wall time 100. -/
theorem claim_C6_witness :
    Core.create_one_time_job envTest 100 uJob2
      = (none, [], [pastWarning uJob2.job_id])
    ∧ lookupAL (Core.add_job envTest 100 uState uJob2).jobs uJob2.job_id
        = some uJob2
    ∧ (Core.add_job envTest 100 uState uJob2).scheduled_jobs
        = cancelExisting uState.scheduled_jobs uJob2.job_id
    ∧ (Core.add_job envTest 100 uState uJob2).plog
        = uState.plog ++ [pastWarning uJob2.job_id]
    ∧ ∃ ev, ¬ ev.isError = true
        ∧ (Core.add_job envTest 100 uState uJob2).events
            = uState.events ++ [ev] :=
  claim_C6_past_one_shot envTest 100 0 uState uJob2 (by decide) rfl (by decide)

/-! ## Claim C7 -/

/-- C7: `Job.from_dict` fails exactly when `job_id` is missing or
empty, `schedule` is missing or empty, `task` is missing, `task.type`
is not `execute_command`, or the `execute_command` task's `command` is
missing or empty; on success the returned `Job` carries the input
fields with `description` defaulting to the empty string; and for a
present unknown tag the error names the tag. -/
theorem claim_C7_job_from_dict (d : JobDict) :
    ((Job.from_dict d).isOk = false ↔
      (pyFalsy d.job_id ∨ pyFalsy d.schedule ∨ d.task = none
        ∨ d.task.bind TaskDict.type ≠ some "execute_command"
        ∨ pyFalsy (d.task.bind TaskDict.command)))
    ∧ (∀ j, Job.from_dict d = .ok j →
        some j.job_id = d.job_id ∧ j.description = d.description.getD ""
        ∧ some j.schedule = d.schedule
        ∧ d.task.bind TaskDict.command = some j.task.command)
    ∧ (∀ td t, d.task = some td → td.type = some t → t ≠ "execute_command" →
        ¬ pyFalsy d.job_id → ¬ pyFalsy d.schedule →
        Job.from_dict d = .error ("Unknown task type: " ++ t)) := by
  obtain ⟨jid, desc, sched, task⟩ := d
  refine ⟨?_, ?_, ?_⟩
  · by_cases h1 : pyFalsy jid
    · simp [Job.from_dict, h1, Except.isOk, Except.toBool]
    · by_cases h2 : pyFalsy sched
      · simp [Job.from_dict, h1, h2, Except.isOk, Except.toBool]
      · cases task with
        | none => simp [Job.from_dict, h1, h2, Except.isOk, Except.toBool]
        | some td =>
          by_cases h3 : td.truthy
          · by_cases h4 : td.type = some "execute_command"
            · cases hc : td.command with
              | none =>
                have h5 : pyFalsy (none : Option String) = true := rfl
                simp [Job.from_dict, Task.from_dict,
                  ExecuteCommandTask.from_dict, h1, h2, h3, h4, hc, h5,
                  Except.isOk, Except.toBool]
              | some c =>
                by_cases h5 : pyFalsy (some c)
                · simp [Job.from_dict, Task.from_dict,
                    ExecuteCommandTask.from_dict, h1, h2, h3, h4, h5, hc,
                    Except.isOk, Except.toBool]
                · cases jid with
                  | none => simp [pyFalsy] at h1
                  | some s =>
                    cases sched with
                    | none => simp [pyFalsy] at h2
                    | some s2 =>
                      simp [Job.from_dict, Task.from_dict,
                        ExecuteCommandTask.from_dict, h1, h2, h3, h4, h5, hc,
                        Except.isOk, Except.toBool]
            · simp [Job.from_dict, Task.from_dict, h1, h2, h3, h4,
                Except.isOk, Except.toBool]
          · have ht : td.type = none := by
              rcases td with ⟨tt, tc, te⟩
              simp [TaskDict.truthy] at h3
              simp [h3.1]
            simp [Job.from_dict, h1, h2, h3, ht, Except.isOk, Except.toBool]
  · intro j hj
    by_cases h1 : pyFalsy jid
    · simp [Job.from_dict, h1] at hj
    · by_cases h2 : pyFalsy sched
      · simp [Job.from_dict, h1, h2] at hj
      · cases task with
        | none => simp [Job.from_dict, h1, h2] at hj
        | some td =>
          by_cases h3 : td.truthy
          · by_cases h4 : td.type = some "execute_command"
            · cases hc : td.command with
              | none =>
                have h5 : pyFalsy (none : Option String) = true := rfl
                simp [Job.from_dict, Task.from_dict,
                  ExecuteCommandTask.from_dict, h1, h2, h3, h4, hc, h5] at hj
              | some c =>
                by_cases h5 : pyFalsy (some c)
                · simp [Job.from_dict, Task.from_dict,
                    ExecuteCommandTask.from_dict, h1, h2, h3, h4, h5, hc] at hj
                · cases jid with
                  | none => simp [pyFalsy] at h1
                  | some s =>
                    cases sched with
                    | none => simp [pyFalsy] at h2
                    | some s2 =>
                      simp [Job.from_dict, Task.from_dict,
                        ExecuteCommandTask.from_dict, h1, h2, h3, h4, h5,
                        hc] at hj
                      simp [← hj, Task.command, hc]
            · simp [Job.from_dict, Task.from_dict, h1, h2, h3, h4] at hj
          · simp [Job.from_dict, h1, h2, h3] at hj
  · intro td t htask htype hne h1 h2
    cases htask
    have h3 : td.truthy := by
      rcases td with ⟨tt, tc, te⟩
      simp [TaskDict.truthy]
      simp at htype
      simp [htype]
    have h4 : ¬ td.type = some "execute_command" := by
      rw [htype]
      simp [hne]
    simp [Job.from_dict, Task.from_dict, h1, h2, h3, h4, htype, pyShow, hne]

/-- A well-formed definition document. -/
def jdOk : JobDict :=
  { job_id := some "j1", description := none, schedule := some "* * * * *",
    task := some { type := some "execute_command",
                   command := some "echo hi" } }

/-- A definition document with an unknown task tag. -/
def jdBad : JobDict :=
  { job_id := some "j1", description := none, schedule := some "* * * * *",
    task := some { type := some "weird", command := some "echo hi" } }

/-- C7 witness: the success shape on a concrete valid document and the
tag-naming error on a concrete unknown-tag document. -/
theorem claim_C7_witness :
    (some (Job.mk "j1" "" "* * * * *" (.executeCommand "echo hi")).job_id
        = jdOk.job_id
      ∧ (Job.mk "j1" "" "* * * * *" (.executeCommand "echo hi")).description
          = jdOk.description.getD ""
      ∧ some (Job.mk "j1" "" "* * * * *" (.executeCommand "echo hi")).schedule
          = jdOk.schedule
      ∧ jdOk.task.bind TaskDict.command
          = some (Job.mk "j1" "" "* * * * *"
              (.executeCommand "echo hi")).task.command)
    ∧ Job.from_dict jdBad = .error ("Unknown task type: " ++ "weird") :=
  ⟨(claim_C7_job_from_dict jdOk).2.1
      (Job.mk "j1" "" "* * * * *" (.executeCommand "echo hi")) rfl,
   (claim_C7_job_from_dict jdBad).2.2
      { type := some "weird", command := some "echo hi" } "weird"
      rfl rfl (by decide) (by decide) (by decide)⟩

/-! ## Claim C10 -/

theorem Mono.schedule_job_eq_core (env : Env) (now : Nat) (st : SchedState)
    (job : Job) :
    Mono.schedule_job env now st job = Core.schedule_job env now st job := by
  unfold Mono.schedule_job Core.schedule_job Core.create_scheduled_job
    Core.create_one_time_job Core.create_recurring_job
  by_cases h : job.is_one_time_schedule
  · rw [if_pos h, if_pos h]
    cases hp : env.parseISO (zToOffset job.schedule) with
    | ok t => by_cases ht : t ≤ now <;> simp [ht]
    | error e => simp
  · rw [if_neg h, if_neg h]
    cases hp : env.parseCron job.schedule now with
    | ok c => simp
    | error e => simp

theorem Mono.step_eq_core (env : Env) (st : SchedState) (op : Op) :
    Mono.step env st op = Core.step env st op := by
  cases op with
  | add job now =>
    show Mono.add_job env now st job = Core.add_job env now st job
    simp only [Mono.add_job, Core.add_job, Mono.schedule_job_eq_core]
  | remove job_id => rfl
  | tick now => rfl

/-- C10: the monolithic `JobScheduler` of `scheduler.py` and the
decomposed `JobScheduler` of `core/` are behaviorally equivalent: from
any starting state, every sequence of `add_job`, `remove_job` and
tick-loop steps produces identical registry contents, identical
event-log output, identical process-log records and identical
execution dispatches. -/
theorem claim_C10_layouts_equivalent (env : Env) (ops : List Op)
    (st : SchedState) : Mono.run env ops st = Core.run env ops st := by
  induction ops generalizing st with
  | nil => rfl
  | cons op rest ih =>
    show Mono.run env rest (Mono.step env st op)
      = Core.run env rest (Core.step env st op)
    rw [Mono.step_eq_core, ih]

/-! ## Further association-list lemmas (key sets and nodup) -/

theorem mem_keysAL_insertAL_of_mem {α : Type} (l : List (String × α))
    (k k' : String) (v : α) (h : k' ∈ keysAL l) :
    k' ∈ keysAL (insertAL l k v) := by
  induction l with
  | nil => simp [keysAL] at h
  | cons p t ih =>
    simp only [keysAL, List.map_cons, List.mem_cons] at h
    by_cases hp : p.1 = k
    · rw [insertAL, if_pos hp]
      simp only [keysAL, List.map_cons, List.mem_cons]
      rcases h with h | h
      · exact Or.inl (h.trans hp)
      · exact Or.inr h
    · rw [insertAL, if_neg hp]
      simp only [keysAL, List.map_cons, List.mem_cons]
      rcases h with h | h
      · exact Or.inl h
      · exact Or.inr (ih h)

theorem self_mem_keysAL_insertAL {α : Type} (l : List (String × α))
    (k : String) (v : α) : k ∈ keysAL (insertAL l k v) := by
  induction l with
  | nil => simp [insertAL, keysAL]
  | cons p t ih =>
    by_cases hp : p.1 = k
    · rw [insertAL, if_pos hp]
      simp [keysAL]
    · rw [insertAL, if_neg hp]
      simp only [keysAL, List.map_cons, List.mem_cons]
      exact Or.inr ih

theorem nodup_keysAL_insertAL {α : Type} (l : List (String × α)) (k : String)
    (v : α) (h : (keysAL l).Nodup) : (keysAL (insertAL l k v)).Nodup := by
  induction l with
  | nil => simp [insertAL, keysAL]
  | cons p t ih =>
    simp only [keysAL, List.map_cons, List.nodup_cons] at h
    by_cases hp : p.1 = k
    · rw [insertAL, if_pos hp]
      simp only [keysAL, List.map_cons, List.nodup_cons]
      exact ⟨fun hk => h.1 (hp ▸ hk), h.2⟩
    · rw [insertAL, if_neg hp]
      simp only [keysAL, List.map_cons, List.nodup_cons]
      refine ⟨fun hk => ?_, ih h.2⟩
      rcases mem_keysAL_insertAL t k p.1 v hk with h2 | h2
      · exact h.1 h2
      · exact hp h2

theorem mem_keysAL_eraseAL_of_ne {α : Type} (l : List (String × α))
    (k k' : String) (h : k' ∈ keysAL l) (hne : k' ≠ k) :
    k' ∈ keysAL (eraseAL l k) := by
  induction l with
  | nil => simp [keysAL] at h
  | cons p t ih =>
    simp only [keysAL, List.map_cons, List.mem_cons] at h
    by_cases hp : p.1 = k
    · rw [eraseAL, if_pos hp]
      rcases h with h | h
      · exact absurd (h.trans hp) hne
      · exact h
    · rw [eraseAL, if_neg hp]
      simp only [keysAL, List.map_cons, List.mem_cons]
      rcases h with h | h
      · exact Or.inl h
      · exact Or.inr (ih h)

theorem mem_of_mem_keysAL_eraseAL {α : Type} (l : List (String × α))
    (k k' : String) (h : k' ∈ keysAL (eraseAL l k)) : k' ∈ keysAL l :=
  (keysAL_eraseAL_sublist l k).mem h

theorem not_mem_keysAL_eraseAL_self {α : Type} (l : List (String × α))
    (k : String) (h : (keysAL l).Nodup) : k ∉ keysAL (eraseAL l k) := by
  induction l with
  | nil => simp [eraseAL, keysAL]
  | cons p t ih =>
    simp only [keysAL, List.map_cons, List.nodup_cons] at h
    by_cases hp : p.1 = k
    · rw [eraseAL, if_pos hp]
      intro hk
      exact h.1 (hp ▸ hk)
    · rw [eraseAL, if_neg hp]
      simp only [keysAL, List.map_cons, List.mem_cons]
      rintro (hk | hk)
      · exact hp hk.symm
      · exact ih h.2 hk

theorem keysAL_cancelExisting (l : List (String × ScheduledJob))
    (k : String) : keysAL (cancelExisting l k) = keysAL l := by
  unfold cancelExisting
  cases lookupAL l k with
  | none => rfl
  | some old => exact keysAL_updateAL l k old.cancel

/-! ## Registry well-formedness and the entries ⊆ jobs invariant -/

/-- Well-formedness of the dict model (Python dicts have unique keys)
plus the keys invariant `entries.keys ⊆ jobs.keys`. -/
def RegistryWf (st : SchedState) : Prop :=
  (keysAL st.jobs).Nodup ∧ (keysAL st.scheduled_jobs).Nodup
  ∧ ∀ id, id ∈ keysAL st.scheduled_jobs → id ∈ keysAL st.jobs

theorem Core.process_fired_jobs (now : Nat) (st : SchedState)
    (sj : ScheduledJob) : (Core.process_fired now st sj).jobs = st.jobs := by
  cases sj with
  | recurring j cr n l c => rfl
  | oneTime j t c =>
    unfold Core.process_fired
    by_cases h : (lookupAL st.scheduled_jobs j.job_id).isSome <;> simp [h]

theorem Core.process_fired_keys_subset (now : Nat) (st : SchedState)
    (sj : ScheduledJob) (id : String)
    (h : id ∈ keysAL (Core.process_fired now st sj).scheduled_jobs) :
    id ∈ keysAL st.scheduled_jobs := by
  cases sj with
  | recurring j cr n l c =>
    unfold Core.process_fired at h
    simp only [ScheduledJob.mark_executed, ScheduledJob.reschedule] at h
    rw [keysAL_updateAL] at h
    exact h
  | oneTime j t c =>
    unfold Core.process_fired at h
    by_cases hl : (lookupAL st.scheduled_jobs j.job_id).isSome
    · simp only [hl, if_true] at h
      exact mem_of_mem_keysAL_eraseAL _ _ _ h
    · simpa [hl] using h

theorem Core.process_fired_nodup (now : Nat) (st : SchedState)
    (sj : ScheduledJob) (h : (keysAL st.scheduled_jobs).Nodup) :
    (keysAL (Core.process_fired now st sj).scheduled_jobs).Nodup := by
  cases sj with
  | recurring j cr n l c =>
    unfold Core.process_fired
    simp only [ScheduledJob.mark_executed, ScheduledJob.reschedule]
    rw [keysAL_updateAL]
    exact h
  | oneTime j t c =>
    unfold Core.process_fired
    by_cases hl : (lookupAL st.scheduled_jobs j.job_id).isSome
    · simp only [hl, if_true]
      exact nodup_keysAL_eraseAL _ _ h
    · simpa [hl] using h

theorem Core.foldl_process_fired_jobs (now : Nat) (l : List ScheduledJob)
    (st : SchedState) :
    (l.foldl (Core.process_fired now) st).jobs = st.jobs := by
  induction l generalizing st with
  | nil => rfl
  | cons sj rest ih => rw [List.foldl_cons, ih, Core.process_fired_jobs]

theorem Core.foldl_process_fired_keys_subset (now : Nat)
    (l : List ScheduledJob) (st : SchedState) (id : String)
    (h : id ∈ keysAL (l.foldl (Core.process_fired now) st).scheduled_jobs) :
    id ∈ keysAL st.scheduled_jobs := by
  induction l generalizing st with
  | nil => exact h
  | cons sj rest ih =>
    rw [List.foldl_cons] at h
    exact Core.process_fired_keys_subset now st sj id (ih _ h)

theorem Core.foldl_process_fired_nodup (now : Nat) (l : List ScheduledJob)
    (st : SchedState) (h : (keysAL st.scheduled_jobs).Nodup) :
    (keysAL (l.foldl (Core.process_fired now) st).scheduled_jobs).Nodup := by
  induction l generalizing st with
  | nil => exact h
  | cons sj rest ih =>
    rw [List.foldl_cons]
    exact ih _ (Core.process_fired_nodup now st sj h)

theorem Core.add_job_jobs (env : Env) (now : Nat) (st : SchedState)
    (job : Job) :
    (Core.add_job env now st job).jobs = insertAL st.jobs job.job_id job := by
  unfold Core.add_job
  simp only [Core.schedule_job_char]
  split
  · rfl
  · split <;> rfl

theorem Core.add_job_scheduled_jobs_keys (env : Env) (now : Nat)
    (st : SchedState) (job : Job) (id : String)
    (h : id ∈ keysAL (Core.add_job env now st job).scheduled_jobs) :
    id ∈ keysAL st.scheduled_jobs ∨ id = job.job_id := by
  have hsj : (Core.add_job env now st job).scheduled_jobs
      = (Core.schedule_job env now
          { st with jobs := insertAL st.jobs job.job_id job } job).scheduled_jobs := by
    unfold Core.add_job
    cases hl : lookupAL st.jobs job.job_id with
    | none => simp [hl]
    | some old => by_cases hs : old.schedule ≠ job.schedule <;> simp [hl, hs]
  rw [hsj, Core.schedule_job_char] at h
  rcases hc : (Core.create_scheduled_job env now job).1 with _ | sj
  · rw [hc] at h
    simp only [] at h
    rw [keysAL_cancelExisting] at h
    exact Or.inl h
  · rw [hc] at h
    simp only [] at h
    rcases mem_keysAL_insertAL _ _ _ _ h with h2 | h2
    · rw [keysAL_cancelExisting] at h2
      exact Or.inl h2
    · exact Or.inr h2

theorem Core.add_job_scheduled_jobs_nodup (env : Env) (now : Nat)
    (st : SchedState) (job : Job)
    (h : (keysAL st.scheduled_jobs).Nodup) :
    (keysAL (Core.add_job env now st job).scheduled_jobs).Nodup := by
  have hsj : (Core.add_job env now st job).scheduled_jobs
      = (Core.schedule_job env now
          { st with jobs := insertAL st.jobs job.job_id job } job).scheduled_jobs := by
    unfold Core.add_job
    cases hl : lookupAL st.jobs job.job_id with
    | none => simp [hl]
    | some old => by_cases hs : old.schedule ≠ job.schedule <;> simp [hl, hs]
  rw [hsj, Core.schedule_job_char]
  rcases hc : (Core.create_scheduled_job env now job).1 with _ | sj
  · show (keysAL (cancelExisting st.scheduled_jobs job.job_id)).Nodup
    rw [keysAL_cancelExisting]
    exact h
  · show (keysAL (insertAL (cancelExisting st.scheduled_jobs job.job_id)
      job.job_id sj)).Nodup
    refine nodup_keysAL_insertAL _ _ _ ?_
    rw [keysAL_cancelExisting]
    exact h

/-- Preservation of registry well-formedness (including
`entries.keys ⊆ jobs.keys`) by every scheduler operation. -/
theorem Core.step_preserves_wf (env : Env) (st : SchedState) (op : Op)
    (h : RegistryWf st) : RegistryWf (Core.step env st op) := by
  obtain ⟨hjn, hsn, hsub⟩ := h
  cases op with
  | add job now =>
    show RegistryWf (Core.add_job env now st job)
    refine ⟨?_, Core.add_job_scheduled_jobs_nodup env now st job hsn, ?_⟩
    · rw [Core.add_job_jobs]
      exact nodup_keysAL_insertAL _ _ _ hjn
    · intro id hid
      rw [Core.add_job_jobs]
      rcases Core.add_job_scheduled_jobs_keys env now st job id hid with h2 | h2
      · exact mem_keysAL_insertAL_of_mem _ _ _ _ (hsub id h2)
      · rw [h2]
        exact self_mem_keysAL_insertAL _ _ _
  | remove job_id =>
    show RegistryWf (Core.remove_job st job_id)
    unfold Core.remove_job
    refine ⟨nodup_keysAL_eraseAL _ _ hjn, nodup_keysAL_eraseAL _ _ hsn, ?_⟩
    intro id hid
    have hmem : id ∈ keysAL st.scheduled_jobs :=
      mem_of_mem_keysAL_eraseAL _ _ _ hid
    have hne : id ≠ job_id := by
      intro hEq
      rw [hEq] at hid
      exact not_mem_keysAL_eraseAL_self _ _ hsn hid
    exact mem_keysAL_eraseAL_of_ne _ _ _ (hsub id hmem) hne
  | tick now =>
    show RegistryWf (Core.tick now st)
    unfold Core.tick
    refine ⟨?_, Core.foldl_process_fired_nodup now _ st hsn, ?_⟩
    · rw [Core.foldl_process_fired_jobs]
      exact hjn
    · intro id hid
      rw [Core.foldl_process_fired_jobs]
      exact hsub id (Core.foldl_process_fired_keys_subset now _ st id hid)

theorem initState_wf : RegistryWf initState := by
  refine ⟨?_, ?_, ?_⟩
  · simp [initState, keysAL]
  · simp [initState, keysAL]
  · intro id hid
    simp [initState, keysAL] at hid

/-! ## Claim C3 -/

/-- C3: at every state reachable from the empty registry by `add_job`,
`remove_job` and tick-loop steps, `entries.keys ⊆ jobs.keys`; moreover
every single operation preserves the invariant (together with key
uniqueness of the dict model). -/
theorem claim_C3_entries_subset_jobs :
    (∀ env ops id,
      id ∈ keysAL (Core.run env ops initState).scheduled_jobs →
      id ∈ keysAL (Core.run env ops initState).jobs)
    ∧ (∀ env st op, RegistryWf st → RegistryWf (Core.step env st op)) := by
  constructor
  · have hrun : ∀ env ops st, RegistryWf st → RegistryWf (Core.run env ops st) := by
      intro env ops
      induction ops with
      | nil => exact fun st h => h
      | cons op rest ih =>
        intro st h
        exact ih _ (Core.step_preserves_wf env st op h)
    intro env ops id hid
    exact (hrun env ops initState initState_wf).2.2 id hid
  · exact Core.step_preserves_wf

/-- C3 witness: preservation applied to the concrete empty registry and
a concrete operation. -/
theorem claim_C3_witness :
    RegistryWf (Core.step envTest initState (.remove "ghost2")) :=
  claim_C3_entries_subset_jobs.2 envTest initState (.remove "ghost2")
    initState_wf

/-! ## Tick-loop lemmas: dispatch traces, lookups, key agreement -/

/-- Every value in the registry map is stored under its own job id
(maintained by construction: `add_job` keys by `job.job_id`). -/
def KeysMatch (l : List (String × ScheduledJob)) : Prop :=
  ∀ p ∈ l, (Prod.snd p).jobId = Prod.fst p

theorem lookupAL_mem {α : Type} (l : List (String × α)) (k : String) (v : α)
    (h : lookupAL l k = some v) : (k, v) ∈ l := by
  induction l with
  | nil => simp [lookupAL] at h
  | cons p t ih =>
    by_cases hp : p.1 = k
    · rw [lookupAL, if_pos hp] at h
      obtain ⟨p1, p2⟩ := p
      simp only at hp h
      simp only [Option.some.injEq] at h
      rw [← hp, ← h]
      exact List.mem_cons_self _ _
    · rw [lookupAL, if_neg hp] at h
      exact List.mem_cons_of_mem p (ih h)

theorem mem_valuesAL_exists_key {α : Type} (l : List (String × α)) (v : α)
    (h : v ∈ valuesAL l) : ∃ k, (k, v) ∈ l := by
  rcases List.mem_map.mp h with ⟨p, hp, hpv⟩
  exact ⟨p.1, by rwa [show (p.1, v) = p from by rw [← hpv]]⟩

theorem map_jobId_valuesAL (l : List (String × ScheduledJob))
    (hkm : KeysMatch l) :
    (valuesAL l).map ScheduledJob.jobId = keysAL l := by
  unfold valuesAL keysAL
  rw [List.map_map]
  exact List.map_congr_left (fun p hp => hkm p hp)

/-- Under unique keys, a snapshot of due entries contains at most one
entry per job id. -/
theorem count_jobId_filter_le_one (l : List (String × ScheduledJob))
    (P : ScheduledJob → Bool) (id : String)
    (hnd : (keysAL l).Nodup) (hkm : KeysMatch l) :
    (((valuesAL l).filter P).map ScheduledJob.jobId).count id ≤ 1 := by
  have hsub : (((valuesAL l).filter P).map ScheduledJob.jobId).Sublist
      ((valuesAL l).map ScheduledJob.jobId) :=
    List.Sublist.map _ (List.filter_sublist _)
  calc (((valuesAL l).filter P).map ScheduledJob.jobId).count id
      ≤ ((valuesAL l).map ScheduledJob.jobId).count id := hsub.count_le id
    _ ≤ 1 := by
        rw [map_jobId_valuesAL l hkm]
        exact List.nodup_iff_count_le_one.mp hnd id

theorem Core.process_fired_dispatched (now : Nat) (st : SchedState)
    (sj : ScheduledJob) :
    (Core.process_fired now st sj).dispatched
      = st.dispatched ++ [sj.jobId] := by
  cases sj with
  | recurring j cr n l c => rfl
  | oneTime j t c =>
    unfold Core.process_fired
    by_cases h : (lookupAL st.scheduled_jobs j.job_id).isSome <;> simp [h]

theorem Core.foldl_process_fired_dispatched (now : Nat)
    (l : List ScheduledJob) (st : SchedState) :
    (l.foldl (Core.process_fired now) st).dispatched
      = st.dispatched ++ l.map ScheduledJob.jobId := by
  induction l generalizing st with
  | nil => simp
  | cons sj rest ih =>
    rw [List.foldl_cons, ih, Core.process_fired_dispatched]
    simp

/-- A tick appends exactly the ids of the due snapshot to the dispatch
trace, in snapshot order. -/
theorem Core.tick_dispatched (now : Nat) (st : SchedState) :
    (Core.tick now st).dispatched
      = st.dispatched
        ++ ((valuesAL st.scheduled_jobs).filter
              (fun sj => sj.should_run now)).map ScheduledJob.jobId := by
  unfold Core.tick
  exact Core.foldl_process_fired_dispatched now _ st

theorem Core.process_fired_lookup_ne (now : Nat) (st : SchedState)
    (sj : ScheduledJob) (id : String) (h : sj.jobId ≠ id) :
    lookupAL (Core.process_fired now st sj).scheduled_jobs id
      = lookupAL st.scheduled_jobs id := by
  cases sj with
  | recurring j cr n l c =>
    unfold Core.process_fired
    simp only [ScheduledJob.mark_executed, ScheduledJob.reschedule]
    exact lookupAL_updateAL_ne _ _ _ _ h
  | oneTime j t c =>
    unfold Core.process_fired
    by_cases hl : (lookupAL st.scheduled_jobs j.job_id).isSome
    · simp only [hl, if_true]
      exact lookupAL_eraseAL_ne _ _ _ h
    · simp [hl]

theorem Core.foldl_process_fired_lookup_ne (now : Nat)
    (l : List ScheduledJob) (st : SchedState) (id : String)
    (h : ∀ sj ∈ l, sj.jobId ≠ id) :
    lookupAL (l.foldl (Core.process_fired now) st).scheduled_jobs id
      = lookupAL st.scheduled_jobs id := by
  induction l generalizing st with
  | nil => rfl
  | cons sj rest ih =>
    rw [List.foldl_cons, ih _ (fun x hx => h x (List.mem_cons_of_mem sj hx)),
      Core.process_fired_lookup_ne now st sj id (h sj (List.mem_cons_self sj rest))]

/-- Processing a fired one-time entry leaves no binding under its id
(either the eviction branch deletes it, or it was already absent). -/
theorem Core.process_fired_one_time_lookup_self (now : Nat) (st : SchedState)
    (j : Job) (t : Nat) (c : Bool) (id : String) (hid : j.job_id = id)
    (hnd : (keysAL st.scheduled_jobs).Nodup) :
    lookupAL (Core.process_fired now st (.oneTime j t c)).scheduled_jobs id
      = none := by
  unfold Core.process_fired
  by_cases hl : (lookupAL st.scheduled_jobs j.job_id).isSome
  · simp only [hl, if_true]
    rw [← hid]
    exact lookupAL_eraseAL_self_of_nodup _ _ hnd
  · simp only [hl, if_false]
    rw [← hid]
    exact Option.not_isSome_iff_eq_none.mp hl

theorem Core.process_fired_keysmatch (now : Nat) (st : SchedState)
    (sj : ScheduledJob) (h : KeysMatch st.scheduled_jobs) :
    KeysMatch (Core.process_fired now st sj).scheduled_jobs := by
  cases sj with
  | recurring j cr n l c =>
    intro p hp
    unfold Core.process_fired at hp
    simp only [ScheduledJob.mark_executed, ScheduledJob.reschedule] at hp
    rcases mem_of_mem_updateAL _ _ _ _ hp with h2 | h2
    · exact h p h2
    · rw [h2]
      rfl
  | oneTime j t c =>
    intro p hp
    unfold Core.process_fired at hp
    by_cases hl : (lookupAL st.scheduled_jobs j.job_id).isSome
    · simp only [hl, if_true] at hp
      exact h p (mem_of_mem_eraseAL _ _ _ hp)
    · simp only [hl, if_false] at hp
      exact h p hp

theorem Core.foldl_process_fired_keysmatch (now : Nat)
    (l : List ScheduledJob) (st : SchedState)
    (h : KeysMatch st.scheduled_jobs) :
    KeysMatch ((l.foldl (Core.process_fired now) st)).scheduled_jobs := by
  induction l generalizing st with
  | nil => exact h
  | cons sj rest ih =>
    rw [List.foldl_cons]
    exact ih _ (Core.process_fired_keysmatch now st sj h)

theorem Core.tick_jobs (now : Nat) (st : SchedState) :
    (Core.tick now st).jobs = st.jobs := by
  unfold Core.tick
  exact Core.foldl_process_fired_jobs now _ st

theorem Core.tick_keysmatch (now : Nat) (st : SchedState)
    (h : KeysMatch st.scheduled_jobs) :
    KeysMatch (Core.tick now st).scheduled_jobs := by
  unfold Core.tick
  exact Core.foldl_process_fired_keysmatch now _ st h

/-! ## Claim C1 -/

/-- C1 counterexample: the every-minute job added at time 0 has nominal
firings at 60, 120, …, 300. If the process is paused until 300, the
tick at 300 fires it once and `reschedule` moves `next_fire_at` only to
120 (the iterator's next value, NOT re-seeded from the current wall
time), which is still in the past, so the tick at 301 fires it AGAIN:
two fires across the two resumption ticks, refuting both "fires at most
once" and "seeded from the current wall time". -/
theorem claim_C1_counterexample :
    (Core.tick 301 (Core.tick 300 (Core.add_job envTest 0 initState
        rJob))).dispatched = ["r1", "r1"]
    ∧ (lookupAL (Core.tick 300 (Core.add_job envTest 0 initState
        rJob)).scheduled_jobs "r1").bind ScheduledJob.nextRunTime? = some 120
    ∧ 120 < 300 :=
  ⟨rfl, rfl, by decide⟩

/-- C1 (amended): each fire advances `next_fire_at` strictly forward to
the next value of the cron iterator, which is seeded at entry creation
and never re-seeded from the current wall time; consequently a paused
process replays missed firings, dispatching each recurring entry at
most once per tick until the iterator catches up with the wall clock. -/
theorem claim_C1_recurring_reschedule (j : Job) (cr : CronIter) (n l : Nat)
    (b : Bool) (now : Nat) (st : SchedState) (id : String)
    (hmono : StrictMono cr.seq) (hidx : 1 ≤ cr.idx)
    (hn : n = cr.seq (cr.idx - 1))
    (hnd : (keysAL st.scheduled_jobs).Nodup)
    (hkm : KeysMatch st.scheduled_jobs) :
    ((ScheduledJob.recurring j cr n l b).reschedule).nextRunTime?
        = some (cr.seq cr.idx)
    ∧ n < cr.seq cr.idx
    ∧ ((Core.tick now st).dispatched).count id
        ≤ (st.dispatched).count id + 1 := by
  refine ⟨rfl, ?_, ?_⟩
  · rw [hn]
    exact hmono (Nat.sub_lt (lt_of_lt_of_le Nat.zero_lt_one hidx) Nat.zero_lt_one)
  · rw [Core.tick_dispatched, List.count_append]
    have hcnt := count_jobId_filter_le_one st.scheduled_jobs
      (fun sj => sj.should_run now) id hnd hkm
    omega

/-- A concrete cron-iterator state: fire times 60, 120, … with the
cursor already past the first value. -/
def crTest : CronIter := ⟨fun i => 60 * (i + 1), 1⟩

/-- C1 witness: the amended theorem at the concrete every-minute
iterator and the empty registry. -/
theorem claim_C1_witness :
    ((ScheduledJob.recurring rJob crTest 60 0 false).reschedule).nextRunTime?
        = some (crTest.seq crTest.idx)
    ∧ 60 < crTest.seq crTest.idx
    ∧ ((Core.tick 0 initState).dispatched).count "r1"
        ≤ (initState.dispatched).count "r1" + 1 :=
  claim_C1_recurring_reschedule rJob crTest 60 0 false 0 initState "r1"
    (by intro a b h; simp only [crTest]; omega) (by decide) rfl
    List.nodup_nil (fun p hp => absurd hp (List.not_mem_nil p))

/-! ## Claim C2 -/

/-- C2: an uncancelled one-shot entry that is due fires exactly once in
the tick that dispatches it, is absent from the entries map afterwards
(so it cannot fire on the immediately following tick, whose dispatch
trace for that id stays unchanged), and the `jobs` map is untouched by
the tick. -/
theorem claim_C2_one_shot_eviction (st : SchedState) (now : Nat) (id : String)
    (j : Job) (t : Nat)
    (hnd : (keysAL st.scheduled_jobs).Nodup)
    (hkm : KeysMatch st.scheduled_jobs)
    (hl : lookupAL st.scheduled_jobs id = some (.oneTime j t false))
    (hdue : t ≤ now) :
    lookupAL (Core.tick now st).scheduled_jobs id = none
    ∧ (Core.tick now st).jobs = st.jobs
    ∧ ((Core.tick now st).dispatched).count id = (st.dispatched).count id + 1
    ∧ ∀ now2, ((Core.tick now2 (Core.tick now st)).dispatched).count id
        = ((Core.tick now st).dispatched).count id := by
  have hpair : (id, ScheduledJob.oneTime j t false) ∈ st.scheduled_jobs :=
    lookupAL_mem _ _ _ hl
  have hjid : (ScheduledJob.oneTime j t false).jobId = id := hkm _ hpair
  have hP : (ScheduledJob.oneTime j t false).should_run now = true := by
    simp [ScheduledJob.should_run, hdue]
  have hef : ScheduledJob.oneTime j t false
      ∈ (valuesAL st.scheduled_jobs).filter (fun sj => sj.should_run now) :=
    List.mem_filter.mpr ⟨List.mem_map_of_mem Prod.snd hpair, hP⟩
  have hle : ((((valuesAL st.scheduled_jobs).filter
        (fun sj => sj.should_run now))).map ScheduledJob.jobId).count id ≤ 1 :=
    count_jobId_filter_le_one _ _ _ hnd hkm
  have hge : 1 ≤ ((((valuesAL st.scheduled_jobs).filter
        (fun sj => sj.should_run now))).map ScheduledJob.jobId).count id := by
    have hmem : id ∈ (((valuesAL st.scheduled_jobs).filter
        (fun sj => sj.should_run now))).map ScheduledJob.jobId :=
      hjid ▸ List.mem_map_of_mem ScheduledJob.jobId hef
    exact List.count_pos_iff.mpr hmem
  have hcount : ((((valuesAL st.scheduled_jobs).filter
        (fun sj => sj.should_run now))).map ScheduledJob.jobId).count id = 1 :=
    le_antisymm hle hge
  obtain ⟨l1, l2, hsplit⟩ := List.append_of_mem hef
  have hcount2 : ((l1 ++ ScheduledJob.oneTime j t false :: l2).map
      ScheduledJob.jobId).count id = 1 := by rw [← hsplit]; exact hcount
  have hzero : (l1.map ScheduledJob.jobId).count id = 0
      ∧ (l2.map ScheduledJob.jobId).count id = 0 := by
    rw [List.map_append, List.count_append, List.map_cons,
      List.count_cons] at hcount2
    rw [hjid] at hcount2
    simp at hcount2
    constructor <;> omega
  have hl1 : ∀ sj ∈ l1, sj.jobId ≠ id := by
    intro sj hsj hEq
    have : id ∈ l1.map ScheduledJob.jobId := hEq ▸ List.mem_map_of_mem _ hsj
    rw [← List.count_pos_iff] at this
    omega
  have hl2 : ∀ sj ∈ l2, sj.jobId ≠ id := by
    intro sj hsj hEq
    have : id ∈ l2.map ScheduledJob.jobId := hEq ▸ List.mem_map_of_mem _ hsj
    rw [← List.count_pos_iff] at this
    omega
  have htick : Core.tick now st
      = l2.foldl (Core.process_fired now)
          (Core.process_fired now (l1.foldl (Core.process_fired now) st)
            (ScheduledJob.oneTime j t false)) := by
    unfold Core.tick
    rw [hsplit, List.foldl_append, List.foldl_cons]
  have hnd1 : (keysAL (l1.foldl (Core.process_fired now)
      st).scheduled_jobs).Nodup :=
    Core.foldl_process_fired_nodup now l1 st hnd
  have hnone : lookupAL (Core.tick now st).scheduled_jobs id = none := by
    rw [htick, Core.foldl_process_fired_lookup_ne now l2 _ id hl2]
    exact Core.process_fired_one_time_lookup_self now _ j t false id hjid hnd1
  refine ⟨hnone, Core.tick_jobs now st, ?_, ?_⟩
  · rw [Core.tick_dispatched, List.count_append, hcount]
  · intro now2
    rw [Core.tick_dispatched now2 (Core.tick now st), List.count_append]
    have hkm2 : KeysMatch (Core.tick now st).scheduled_jobs :=
      Core.tick_keysmatch now st hkm
    have hzero2 : ((((valuesAL (Core.tick now st).scheduled_jobs).filter
        (fun sj => sj.should_run now2))).map ScheduledJob.jobId).count id
          = 0 := by
      rw [List.count_eq_zero]
      intro hmem
      rcases List.mem_map.mp hmem with ⟨sj, hsj, hsjid⟩
      have hval : sj ∈ valuesAL (Core.tick now st).scheduled_jobs :=
        (List.mem_filter.mp hsj).1
      rcases mem_valuesAL_exists_key _ _ hval with ⟨k, hk⟩
      have hjk : sj.jobId = k := hkm2 _ hk
      have hkid : k = id := by rw [← hjk, hsjid]
      have hkeys : id ∈ keysAL (Core.tick now st).scheduled_jobs :=
        hkid ▸ List.mem_map_of_mem Prod.fst hk
      have hsome : (lookupAL (Core.tick now st).scheduled_jobs id).isSome :=
        (lookupAL_isSome_iff_mem_keysAL _ _).mpr hkeys
      rw [hnone] at hsome
      exact absurd hsome (by simp)
    rw [hzero2]
    simp

/-- A one-shot job and a registry state holding its due entry. -/
def oJob : Job :=
  { job_id := "o1", description := "", schedule := "2000-01-01T00:00:05Z",
    task := .executeCommand "echo" }

def oState : SchedState :=
  { jobs := [("o1", oJob)],
    scheduled_jobs := [("o1", .oneTime oJob 5 false)],
    events := [], plog := [], dispatched := [] }

/-- C2 witness: the due one-shot `o1` is evicted by the tick at time 10,
`jobs` survives, and the dispatch count rises by exactly one. -/
theorem claim_C2_witness :
    lookupAL (Core.tick 10 oState).scheduled_jobs "o1" = none
    ∧ (Core.tick 10 oState).jobs = oState.jobs
    ∧ ((Core.tick 10 oState).dispatched).count "o1"
        = (oState.dispatched).count "o1" + 1 :=
  have h := claim_C2_one_shot_eviction oState 10 "o1" oJob 5
    (by decide)
    (fun p hp => by rcases List.mem_singleton.mp hp with rfl; rfl)
    rfl (by decide)
  ⟨h.1, h.2.1, h.2.2.1⟩

end JobSched
